import Mathlib

/-
Shallow embedding of the SocialRobot repository (devasphn/SocialRobot).

Source files embedded here:
  * src/audio/vad.py        — VADConfig, VADListener (ring-buffer hysteresis segmenter)
  * src/main.py             — on_speech_detected turn handler (with face animation)
  * src/streamlined_main.py — on_speech_detected turn handler (no face animation)
  * src/llm/ollama.py       — OllamaClient.query
  * src/audio/tts.py        — KokoroTTS.play_audio_with_amplitude
  * src/face_animation/face.py — FaceAnimator._update_mouth / update_amplitude

Real numbers computed with Python floats in the source (ratios, 0.35, 0.85,
14.0, amplitude levels) are embedded as rationals; all the concrete values
exercised below are exactly representable in binary floating point, so the
rational and float computations agree on them.  The per-chunk RMS value of
the playback path (a float sqrt pipeline) is kept as an abstract parameter,
since no claim depends on its numeric value.
-/

/-- Truncation toward zero: Python's int() applied to a (nonnegative or
negative) fraction, as used in vad.py and tts.py. -/
def pyInt (q : ℚ) : ℤ := if 0 ≤ q then ⌊q⌋ else -⌊-q⌋

/-- The ASCII whitespace characters removed by Python's str.strip(). -/
def isPySpace (c : Char) : Bool :=
  c.toNat = 32 || c.toNat = 9 || c.toNat = 10 || c.toNat = 13 ||
    c.toNat = 11 || c.toNat = 12

/-- Python str.strip(): drop leading and trailing whitespace. -/
def pyStrip (s : String) : String :=
  ⟨((s.data.dropWhile isPySpace).reverse.dropWhile isPySpace).reverse⟩

/-- Python str.lower(), restricted to the ASCII range exercised here. -/
def pyLower (s : String) : String := ⟨s.data.map Char.toLower⟩

/-- Whether pat occurs as an initial segment of the second list (helper for the
substring test). -/
def isPrefixList : List Char → List Char → Bool
  | [], _ => true
  | _ :: _, [] => false
  | a :: as, b :: bs => a == b && isPrefixList as bs

/-- Whether pat occurs contiguously somewhere in the second list. -/
def containsSub (pat : List Char) : List Char → Bool
  | [] => isPrefixList pat []
  | b :: bs => isPrefixList pat (b :: bs) || containsSub pat bs

/-- Python's substring operator a in b on strings. -/
def pyIn (a b : String) : Bool := containsSub a.data b.data

/-- Frame: the raw bytes of one captured audio frame (vad.py reads
frame_size samples per iteration). -/
abbrev Frame := List ℕ

/-- VADConfig (src/audio/vad.py).  activationFrac and deactivationFrac
stand for the activation_ratio and deactivation_ratio fields of the
Python dataclass (defaults 0.6 and 0.85). -/
structure VADConfig where
  sampleRate : ℕ
  frameDurationMs : ℕ
  paddingDurationMs : ℕ
  activationFrac : ℚ
  deactivationFrac : ℚ
  aggressiveness : ℕ
deriving DecidableEq

/-- The derived counters VADListener.__init__ computes once from its
VADConfig (src/audio/vad.py lines 41-43), plus skipOnEnable, the value
enable_vad assigns to _frames_to_skip
(max(max(1, int(0.4 / (frame_duration_ms / 1000.0))), padding_frames),
lines 134-135), precomputed here because it is a pure function of the
configuration. -/
structure VADListener where
  paddingFrames : ℕ
  activationCount : ℕ
  deactivationCount : ℕ
  frameDurationMs : ℕ
  skipOnEnable : ℕ
deriving DecidableEq

/-- VADListener.__init__: padding_frames = max(1, int(padding_duration_ms
/ frame_duration_ms)); activation_count = max(1, int(padding_frames *
activation_ratio)); deactivation_count = max(1, int(padding_frames *
deactivation_ratio)). -/
def VADListener.ofConfig (c : VADConfig) : VADListener :=
  let pf : ℕ := max 1 (pyInt ((c.paddingDurationMs : ℚ) / (c.frameDurationMs : ℚ))).toNat
  { paddingFrames := pf
    activationCount := max 1 (pyInt ((pf : ℚ) * c.activationFrac)).toNat
    deactivationCount := max 1 (pyInt ((pf : ℚ) * c.deactivationFrac)).toNat
    frameDurationMs := c.frameDurationMs
    skipOnEnable :=
      max (max 1 (pyInt ((2/5 : ℚ) / ((c.frameDurationMs : ℚ) / 1000))).toNat) pf }

/-- The mutable state of the capture loop in VADListener.start together
with the flags set by enable_vad / disable_vad: the ring buffer of
(frame, is_speech) pairs (oldest first), the triggered flag, the
voiced_frames accumulator (oldest first), _frames_to_skip,
_reset_buffers and _vad_enabled. -/
structure SegState where
  ring : List (Frame × Bool)
  triggered : Bool
  voiced : List Frame
  framesToSkip : ℕ
  resetBuffers : Bool
  vadEnabled : Bool
deriving DecidableEq

/-- The state at the top of VADListener.start: empty buffers, not
triggered, no skip, no pending reset, _vad_enabled set in __init__. -/
def initSeg : SegState :=
  { ring := [], triggered := false, voiced := [], framesToSkip := 0,
    resetBuffers := false, vadEnabled := true }

/-- disable_vad (vad.py lines 141-144): zero the skip counter, request a
buffer reset, clear the enabled event. -/
def disableVad (s : SegState) : SegState :=
  { s with framesToSkip := 0, resetBuffers := true, vadEnabled := false }

/-- enable_vad (vad.py lines 133-139): arm the skip counter, request a
buffer reset, set the enabled event. -/
def enableVad (L : VADListener) (s : SegState) : SegState :=
  { s with framesToSkip := L.skipOnEnable, resetBuffers := true, vadEnabled := true }

/-- deque(maxlen=padding_frames).append: push on the right, evicting from
the left when the window is at capacity. -/
def ringPush (L : VADListener) (r : List (Frame × Bool)) (x : Frame × Bool) :
    List (Frame × Bool) :=
  let r2 := r ++ [x]
  r2.drop (r2.length - L.paddingFrames)

/-- Number of voiced entries of the ring buffer
(sum(1 for _, speech in ring_buffer if speech)). -/
def numVoiced (r : List (Frame × Bool)) : ℕ := (r.filter (fun p => p.2)).length

/-- Number of unvoiced entries of the ring buffer. -/
def numUnvoiced (r : List (Frame × Bool)) : ℕ := (r.filter (fun p => !p.2)).length

/-- One loop iteration of VADListener.start from the point where the
frame has been classified (vad.py lines 104-124): push onto the ring
buffer, run the hysteresis, emit the joined segment on deactivation when
it is non-empty.  The emitted value is the voiced_frames list whose
b"".join the callback receives. -/
def stepClassified (L : VADListener) (s : SegState) (f : Frame) (b : Bool) :
    SegState × Option (List Frame) :=
  let r := ringPush L s.ring (f, b)
  if s.triggered then
    let v := s.voiced ++ [f]
    if r.length = L.paddingFrames ∧ L.deactivationCount ≤ numUnvoiced r then
      ({ s with ring := [], triggered := false, voiced := [] },
        if v.flatten = [] then none else some v)
    else
      ({ s with ring := r, voiced := v }, none)
  else
    if r.length = L.paddingFrames ∧ L.activationCount ≤ numVoiced r then
      ({ s with ring := [], triggered := true, voiced := s.voiced ++ r.map Prod.fst },
        none)
    else
      ({ s with ring := r }, none)

/-- The part of a loop iteration after the frame was read (vad.py lines
93-124): honour a pending _reset_buffers, then the skip counter, then
classify. -/
def stepFrameRead (L : VADListener) (s : SegState) (f : Frame) (b : Bool) :
    SegState × Option (List Frame) :=
  let s1 := if s.resetBuffers then
      { s with ring := [], voiced := [], triggered := false, resetBuffers := false }
    else s
  if 0 < s1.framesToSkip then
    ({ s1 with framesToSkip := s1.framesToSkip - 1 }, none)
  else
    stepClassified L s1 f b

/-- The events the capture loop interleaves with: one loop iteration in
which a frame would be read and classified as b, or a call to
enable_vad / disable_vad made by the turn handler between iterations. -/
inductive SegEv where
  | frame (f : Frame) (b : Bool)
  | enable
  | disable
deriving DecidableEq

/-- One step of the capture loop (vad.py lines 78-124).  While
_vad_enabled is cleared an iteration clears the buffers and sleeps
without reading a frame. -/
def stepSeg (L : VADListener) (s : SegState) : SegEv → SegState × Option (List Frame)
  | .enable => (enableVad L s, none)
  | .disable => (disableVad s, none)
  | .frame f b =>
    if s.vadEnabled then stepFrameRead L s f b
    else ({ s with ring := [], voiced := [], triggered := false }, none)

/-- The segmenter state after the capture loop has processed a list of
events. -/
def segFinal (L : VADListener) (s : SegState) : List SegEv → SegState
  | [] => s
  | e :: es => segFinal L (stepSeg L s e).1 es

/-- The segments (as voiced_frames lists) the capture loop emits to the
callback while processing a list of events, in order. -/
def segEmits (L : VADListener) (s : SegState) : List SegEv → List (List Frame)
  | [] => []
  | e :: es =>
    (match (stepSeg L s e).2 with | some v => [v] | none => []) ++
      segEmits L (stepSeg L s e).1 es

/-- The frames carried by the frame events of an event list. -/
def evFrames : List SegEv → List Frame
  | [] => []
  | .frame f _ :: es => f :: evFrames es
  | _ :: es => evFrames es

/-- Whether an event is a voiced frame (used to count voiced frames of a
concrete ingested window). -/
def evVoiced : SegEv → Bool
  | .frame _ b => b
  | _ => false

/-- All frames held by the segmenter's buffers (ring window plus
accumulator). -/
def bufMem (s : SegState) : List Frame := s.ring.map Prod.fst ++ s.voiced

/-- Either a buffer reset is pending (so the buffers will be discarded
before being used) or every buffered frame comes from the allowed
list A. -/
def SegOk (A : List Frame) (s : SegState) : Prop :=
  s.resetBuffers = true ∨ ∀ f ∈ bufMem s, f ∈ A

/-- One parsed line of an Ollama streaming response
(json.loads of a non-empty line in OllamaClient.query). -/
structure OllamaChunk where
  done : Bool
  content : Option String
deriving DecidableEq

/-- The outcome of requests.post in OllamaClient.query when it does not
raise: the HTTP status code, the parsed non-empty stream lines (used
when stream=True), and data["message"]["content"] of the aggregated
JSON body (used when stream=False). -/
structure OllamaHttp where
  statusCode : ℕ
  lines : List OllamaChunk
  messageContent : Option String
deriving DecidableEq

/-- The aggregation loop of OllamaClient.query for a streaming response:
stop at the first chunk with done set, otherwise concatenate the truthy
message contents. -/
def aggStream : List OllamaChunk → String
  | [] => ""
  | c :: cs => if c.done then "" else c.content.getD "" ++ aggStream cs

/-- OllamaClient.query (src/llm/ollama.py lines 31-61) over the outcome
of requests.post: a raise propagates; a non-200 status returns "";
otherwise the (streamed or plain) content is aggregated and stripped. -/
def ollamaQuery (stream : Bool) (net : Except Unit OllamaHttp) : Except Unit String :=
  match net with
  | .error e => .error e
  | .ok r =>
    if r.statusCode ≠ 200 then .ok ""
    else if stream then .ok (pyStrip (aggStream r.lines))
    else .ok (pyStrip (r.messageContent.getD ""))

/-- The observable actions a turn handler performs, in order: gating
calls on the segmenter, invocations of the external capabilities,
amplitude samples pushed to the face animator, updates of
last_bot_response, and termination by an uncaught exception. -/
inductive Act where
  | disable
  | enable
  | callStt
  | callQuery
  | callSynth
  | callPlay
  | amp (level : ℚ)
  | setLast (s : String)
  | raised
deriving DecidableEq

/-- State of the _vad_enabled gate after a list of actions, starting
from the given value. -/
def vadAfterFrom (v : Bool) (acts : List Act) : Bool :=
  acts.foldl (fun w a => match a with
    | Act.enable => true
    | Act.disable => false
    | _ => w) v

/-- State of the _vad_enabled gate after a list of actions (the gate is
set when the turn handler is entered). -/
def vadAfter (acts : List Act) : Bool := vadAfterFrom true acts

/-- Value of last_bot_response after a list of actions, starting from
the given value. -/
def lastAfter (acts : List Act) (init : String) : String :=
  acts.foldl (fun w a => match a with
    | Act.setLast t => t
    | _ => w) init

/-- The self-echo test of on_speech_detected (src/main.py lines 69-80 and
src/streamlined_main.py lines 85-96): normalize both texts by strip and
lower; echo when both are non-empty and they are equal or one contains
the other. -/
def isEcho (userText botText : String) : Bool :=
  let nu := pyLower (pyStrip userText)
  let nb := pyLower (pyStrip botText)
  nu != "" && nb != "" && (nu == nb || pyIn nu nb || pyIn nb nu)

/-- The external capabilities on_speech_detected of src/main.py invokes
and their outcomes for one emitted segment: the STT result (an uncaught
model fault is a raise), the requests.post outcome behind
OllamaClient.query, whether EspeakTTS.synthesize raises, and the
behaviour of the playback capability — the amplitude levels it delivers
to the callback and whether it raises.  STT, synthesis and playback are
capability interfaces here (their classes are not part of src/); the
query capability is OllamaClient.query, embedded above from source. -/
structure MainCaps where
  stt : Except Unit String
  net : Except Unit OllamaHttp
  synthFails : Bool
  playCalls : List ℚ
  playRaise : Bool

/-- on_speech_detected of src/main.py (lines 49-103), as the ordered
list of observable actions of one turn.  Exceptions of the STT call and
of synthesize are caught (lines 56-60, 88-94); an exception raised by
OllamaClient.query (line 82) or by play_audio_with_amplitude (line 101)
propagates out of the handler, recorded as Act.raised. -/
def mainTurn (c : MainCaps) (lastResp : String) : List Act :=
  let recognized := match c.stt with | .ok t => t | .error _ => ""
  Act.disable :: Act.callStt ::
    (if pyStrip recognized = "" then [Act.amp 0, Act.enable]
     else if isEcho recognized lastResp then [Act.amp 0, Act.enable]
     else
       Act.callQuery ::
         (match ollamaQuery true c.net with
          | .error _ => [Act.raised]
          | .ok resp =>
            if pyStrip resp = "" then [Act.amp 0, Act.enable]
            else
              Act.callSynth ::
                (if c.synthFails then [Act.amp 0, Act.enable]
                 else
                   Act.setLast resp :: Act.callPlay ::
                     (c.playCalls.map Act.amp ++
                       (if c.playRaise then [Act.raised]
                        else [Act.amp 0, Act.enable])))))

/-- The external capabilities on_speech_detected of
src/streamlined_main.py invokes: STT outcome, requests.post outcome,
whether KokoroTTS.synthesize raises, and whether the playback call
raises (play_audio is invoked on KokoroTTS, which does not define it, so
it is kept as a fallible capability). -/
structure StreamCaps where
  stt : Except Unit String
  net : Except Unit OllamaHttp
  synthFails : Bool
  playFails : Bool

/-- on_speech_detected of src/streamlined_main.py (lines 60-117), as the
ordered list of observable actions of one turn.  The try block covers
both synthesize and the playback call (lines 106-114); after it,
last_bot_response is assigned and the segmenter re-enabled
unconditionally (lines 116-117). -/
def streamlinedTurn (c : StreamCaps) (lastResp : String) : List Act :=
  let recognized := match c.stt with | .ok t => t | .error _ => ""
  Act.disable :: Act.callStt ::
    (if pyStrip recognized = "" then [Act.enable]
     else if isEcho recognized lastResp then [Act.enable]
     else
       Act.callQuery ::
         (match ollamaQuery true c.net with
          | .error _ => [Act.raised]
          | .ok resp =>
            if pyStrip resp = "" then [Act.enable]
            else
              (Act.callSynth ::
                (if c.synthFails then [] else [Act.callPlay])) ++
                [Act.setLast resp, Act.enable]))

/-- Environment of one call to KokoroTTS.play_audio_with_amplitude: the
per-chunk RMS computation (a floating-point sqrt pipeline, abstracted as
an arbitrary function of the chunk), whether pyaudio fails to open the
output stream (pa.open is executed before the try block), and the chunk
index at which stream.write raises, if any. -/
structure PlayEnv where
  rmsOf : List ℚ → ℚ
  openFails : Bool
  writeFailAt : Option ℕ

/-- Result of one call to KokoroTTS.play_audio_with_amplitude: the
amplitude-callback invocations in order, whether an output stream was
opened, and whether the call raised. -/
structure PlayResult where
  calls : List ℚ
  openedStream : Bool
  raised : Bool
deriving DecidableEq

/-- KokoroTTS._chunk_audio: [audio[i : i + size] for i in
range(0, len(audio), size)], for size > 0. -/
def chunkSamples (size : ℕ) (samples : List ℚ) : List (List ℚ) :=
  (List.range ((samples.length + size - 1) / size)).map
    (fun i => (samples.drop (i * size)).take size)

/-- Python max() over a non-empty list (0 for the empty list, which the
source never reaches). -/
def maxQ : List ℚ → ℚ
  | [] => 0
  | [x] => x
  | x :: y :: xs => max x (maxQ (y :: xs))

/-- KokoroTTS.play_audio_with_amplitude (src/audio/tts.py lines 95-139).
An absent or empty buffer invokes the callback once with 0.0 and
returns before any stream is opened; otherwise the audio is chunked,
per-chunk normalized levels are computed, the stream is opened (a raise
here happens before the try block, so no callback runs), and the write
loop delivers one level per written chunk, with the finally block
delivering a terminal 0.0 even when a write raises. -/
def playAudioWithAmplitude (env : PlayEnv) (sampleRate : ℕ)
    (samples : Option (List ℚ)) (hasCallback : Bool) (chunkDuration : ℚ) :
    PlayResult :=
  match samples with
  | none => { calls := if hasCallback then [0] else [], openedStream := false, raised := false }
  | some a =>
    if a.length = 0 then
      { calls := if hasCallback then [0] else [], openedStream := false, raised := false }
    else
      let size := max 1 (pyInt ((sampleRate : ℚ) * chunkDuration)).toNat
      let chunks := chunkSamples size a
      if chunks.length = 0 then { calls := [], openedStream := false, raised := false }
      else
        let rms := chunks.map env.rmsOf
        let maxRms := if maxQ rms = 0 then 1 else maxQ rms
        let levels := rms.map (fun q => min (q / maxRms) 1)
        if env.openFails then { calls := [], openedStream := false, raised := true }
        else
          let wrote := match env.writeFailAt with
            | none => chunks.length
            | some k => min k chunks.length
          let didRaise := match env.writeFailAt with
            | none => false
            | some k => decide (k < chunks.length)
          { calls := (if hasCallback then levels.take wrote else []) ++
              (if hasCallback then [0] else []),
            openedStream := true, raised := didRaise }

/-- The smoothing state of FaceAnimator: _current_mouth_level,
_target_mouth_level, _last_mouth_update. -/
structure Mouth where
  current : ℚ
  target : ℚ
  lastUpdate : ℚ
deriving DecidableEq

/-- The drain loop of FaceAnimator._update_mouth: apply each queued
(timestamp, amplitude) pair in arrival order, clamping the level to
[0, 1]; the last entry wins. -/
def drainQueue (q : List (ℚ × ℚ)) (m : Mouth) : Mouth :=
  match q with
  | [] => m
  | (ts, a) :: rest => drainQueue rest { m with target := max 0 (min a 1), lastUpdate := ts }

/-- FaceAnimator._update_mouth (src/face_animation/face.py lines
121-132) with the monotonic clock and the queue contents made explicit:
drain the queue, decay the target by 0.85 when the last update is older
than 0.35 s, then exponentially smooth the current level with gain
min(1, dt * 14). -/
def updateMouth (now dt : ℚ) (q : List (ℚ × ℚ)) (m : Mouth) : Mouth :=
  let m1 := drainQueue q m
  let m2 := if 7/20 < now - m1.lastUpdate then { m1 with target := m1.target * (17/20) } else m1
  { m2 with current := m2.current + (m2.target - m2.current) * min 1 (dt * 14) }

/-- Modelled from the spec: the self-echo rule as §4.2 step 4 and §8
state it — normalize both texts (trim, lowercase); echo iff both are
non-empty and either is a substring of the other (including exact
equality).  Compared below with the code's isEcho. -/
def echoSpecB (userText botText : String) : Bool :=
  let nu := pyLower (pyStrip userText)
  let nb := pyLower (pyStrip botText)
  nu != "" && nb != "" && (pyIn nu nb || pyIn nb nu)

/-- Modelled from the spec: the behaviour claim C9 asserts for enable()
on an already-enabled segmenter — re-arm only the skip counter, touch
nothing else.  Compared below with the code's enableVad. -/
def enableOnlySkip (L : VADListener) (s : SegState) : SegState :=
  { s with framesToSkip := L.skipOnEnable, vadEnabled := true }

/-- The default VADConfig of the dataclass (sample_rate=16000,
frame_duration_ms=30, padding_duration_ms=300, activation_ratio=0.6,
deactivation_ratio=0.85, aggressiveness=2). -/
def stdConfig : VADConfig :=
  { sampleRate := 16000, frameDurationMs := 30, paddingDurationMs := 300,
    activationFrac := 3/5, deactivationFrac := 17/20, aggressiveness := 2 }

/-- The default configuration with activation_ratio = 0.75 (exactly
representable in binary floating point, so the float and rational
computations agree): the configuration on which the claimed round(...)
threshold and the code's int(...) threshold differ. -/
def cfg75 : VADConfig :=
  { sampleRate := 16000, frameDurationMs := 30, paddingDurationMs := 300,
    activationFrac := 3/4, deactivationFrac := 17/20, aggressiveness := 2 }

/-- The derived counters of the default configuration. -/
def stdListener : VADListener :=
  { paddingFrames := 10, activationCount := 6, deactivationCount := 8,
    frameDurationMs := 30, skipOnEnable := 13 }

/-- The derived counters of cfg75. -/
def listener75 : VADListener :=
  { paddingFrames := 10, activationCount := 7, deactivationCount := 8,
    frameDurationMs := 30, skipOnEnable := 13 }

/-- A one-frame-window listener (padding_duration_ms = 30 under the
default ratios), used for small concrete traces. -/
def tinyListener : VADListener :=
  { paddingFrames := 1, activationCount := 1, deactivationCount := 1,
    frameDurationMs := 30, skipOnEnable := 13 }

/-- Ten classified frames of which exactly the last seven are voiced. -/
def es75 : List SegEv :=
  List.replicate 3 (SegEv.frame [0] false) ++ List.replicate 7 (SegEv.frame [1] true)

/-- Ten classified frames with exactly six voiced. -/
def esTrig6 : List SegEv :=
  List.replicate 4 (SegEv.frame [0] false) ++ List.replicate 6 (SegEv.frame [1] true)

/-- Ten classified frames with exactly five voiced. -/
def esTrig5 : List SegEv :=
  List.replicate 5 (SegEv.frame [0] false) ++ List.replicate 5 (SegEv.frame [1] true)

/-- A trigger window followed by a fresh full window with exactly eight
unvoiced frames. -/
def esDeact8 : List SegEv :=
  esTrig6 ++ List.replicate 2 (SegEv.frame [1] true) ++
    List.replicate 8 (SegEv.frame [0] false)

/-- A trigger window followed by a fresh full window with exactly seven
unvoiced frames. -/
def esDeact7 : List SegEv :=
  esTrig6 ++ List.replicate 3 (SegEv.frame [1] true) ++
    List.replicate 7 (SegEv.frame [0] false)

/-- A mid-utterance segmenter state: triggered, with one frame already
accumulated. -/
def dirtySeg : SegState :=
  { ring := [], triggered := true, voiced := [[7]], framesToSkip := 0,
    resetBuffers := false, vadEnabled := true }

/-- Thirteen skip-eating frames followed by one voiced and one unvoiced
frame: under tinyListener this produces one emitted segment. -/
def esAfterSkip : List SegEv :=
  List.replicate 13 (SegEv.frame [9] false) ++
    [SegEv.frame [1] true, SegEv.frame [2] false]

/-- esAfterSkip preceded by an enable_vad call. -/
def esEnableThen : List SegEv := SegEv.enable :: esAfterSkip

/-- Two classified frames (one voiced, one unvoiced), each non-empty. -/
def framesW : List (Frame × Bool) := [([1], true), ([2], false)]

/-- A successful Ollama exchange whose aggregated reply is "world". -/
def okHttp : OllamaHttp :=
  { statusCode := 200, lines := [{ done := false, content := some "world" }],
    messageContent := none }

/-- Turn capabilities: recognized speech, but requests.post raises. -/
def capsNetRaise : MainCaps :=
  { stt := .ok "hello", net := .error (), synthFails := false,
    playCalls := [], playRaise := false }

/-- Turn capabilities: STT raises, the network is fine. -/
def capsSttFail : MainCaps :=
  { stt := .error (), net := .ok okHttp, synthFails := false,
    playCalls := [], playRaise := false }

/-- Turn capabilities: a full turn in which only synthesis fails. -/
def capsSynthFail : MainCaps :=
  { stt := .ok "hi", net := .ok okHttp, synthFails := true,
    playCalls := [], playRaise := false }

/-- Streamlined-turn capabilities: a full turn in which only synthesis
fails. -/
def scapsSynthFail : StreamCaps :=
  { stt := .ok "hi", net := .ok okHttp, synthFails := true, playFails := false }

/-- Turn capabilities: a fully successful turn whose playback delivers
one mid-level amplitude sample. -/
def capsSuccess : MainCaps :=
  { stt := .ok "hi", net := .ok okHttp, synthFails := false,
    playCalls := [1/2], playRaise := false }

/-- Turn capabilities whose transcription is "turn left". -/
def capsEcho : MainCaps :=
  { stt := .ok "turn left", net := .ok okHttp, synthFails := false,
    playCalls := [], playRaise := false }

/-- Turn capabilities whose transcription is "hello there". -/
def capsHello : MainCaps :=
  { stt := .ok "hello there", net := .ok okHttp, synthFails := false,
    playCalls := [], playRaise := false }

/-- Streamlined-turn capabilities whose transcription is "turn left". -/
def scapsEcho : StreamCaps :=
  { stt := .ok "turn left", net := .ok okHttp, synthFails := false, playFails := false }

/-- Streamlined-turn capabilities whose transcription is "hello there". -/
def scapsHello : StreamCaps :=
  { stt := .ok "hello there", net := .ok okHttp, synthFails := false, playFails := false }

/-- A playback environment in which pa.open raises. -/
def envOpenFail : PlayEnv :=
  { rmsOf := fun _ => 1, openFails := true, writeFailAt := none }

/-- A playback environment in which nothing fails. -/
def envOk : PlayEnv :=
  { rmsOf := fun _ => 1, openFails := false, writeFailAt := none }

/-- Two segmenter states that agree on every flag and differ at most in
the buffer fields (ring, voiced, triggered) while a buffer reset is
pending on both.  Such states are observationally equivalent: the
pending reset discards the buffers before they can influence
anything. -/
def SegRel (s t : SegState) : Prop :=
  s = t ∨
    (s.resetBuffers = true ∧ t.resetBuffers = true ∧
      s.framesToSkip = t.framesToSkip ∧ s.vadEnabled = t.vadEnabled)

/-- A segmenter state with its buffers (ring, voiced, triggered)
cleared, everything else untouched. -/
def clearBuf (s : SegState) : SegState :=
  { s with ring := [], voiced := [], triggered := false }

/-! Helper lemmas -/

theorem isPrefixList_refl (l : List Char) : isPrefixList l l = true := by
  induction l with
  | nil => rfl
  | cons a as ih => simp [isPrefixList, ih]

theorem containsSub_refl (l : List Char) : containsSub l l = true := by
  cases l with
  | nil => rfl
  | cons a as => simp [containsSub, isPrefixList_refl]

theorem pyIn_refl (s : String) : pyIn s s = true := by
  simpa [pyIn] using containsSub_refl s.data

theorem isEcho_eq_echoSpecB (u b : String) : isEcho u b = echoSpecB u b := by
  unfold isEcho echoSpecB
  by_cases h : pyLower (pyStrip u) = pyLower (pyStrip b)
  · simp [h, pyIn_refl]
  · have hb : (pyLower (pyStrip u) == pyLower (pyStrip b)) = false :=
      beq_eq_false_iff_ne.mpr h
    simp [hb]

theorem vadAfterFrom_append (v : Bool) (l₁ l₂ : List Act) :
    vadAfterFrom v (l₁ ++ l₂) = vadAfterFrom (vadAfterFrom v l₁) l₂ := by
  simp [vadAfterFrom, List.foldl_append]

theorem lastAfter_append (l₁ l₂ : List Act) (t : String) :
    lastAfter (l₁ ++ l₂) t = lastAfter l₂ (lastAfter l₁ t) := by
  simp [lastAfter, List.foldl_append]

theorem vadAfterFrom_amps (v : Bool) (q : List ℚ) :
    vadAfterFrom v (q.map Act.amp) = v := by
  induction q generalizing v with
  | nil => rfl
  | cons x xs ih => simpa [vadAfterFrom] using ih v

theorem lastAfter_amps (q : List ℚ) (t : String) :
    lastAfter (q.map Act.amp) t = t := by
  induction q with
  | nil => rfl
  | cons x xs ih => simpa [lastAfter] using ih

theorem raised_notMem_amps (q : List ℚ) : Act.raised ∉ q.map Act.amp := by
  simp


theorem stepClassified_emit {L : VADListener} {s : SegState} {f : Frame} {b : Bool}
    {v : List Frame} (h : (stepClassified L s f b).2 = some v) : v.flatten ≠ [] := by
  simp only [stepClassified] at h
  split at h
  · split at h
    · split at h
      · exact absurd h (by simp)
      · next hne => simp only [Option.some.injEq] at h; exact h ▸ hne
    · exact absurd h (by simp)
  · split at h <;> exact absurd h (by simp)

theorem stepFrameRead_emit {L : VADListener} {s : SegState} {f : Frame} {b : Bool}
    {v : List Frame} (h : (stepFrameRead L s f b).2 = some v) : v.flatten ≠ [] := by
  simp only [stepFrameRead] at h
  split at h <;> split at h <;>
    first
      | exact stepClassified_emit h
      | exact absurd h (by simp)

theorem stepSeg_emit {L : VADListener} {s : SegState} {e : SegEv}
    {v : List Frame} (h : (stepSeg L s e).2 = some v) : v.flatten ≠ [] := by
  cases e with
  | enable => exact absurd h (by simp [stepSeg])
  | disable => exact absurd h (by simp [stepSeg])
  | frame f b =>
    simp only [stepSeg] at h
    split at h
    · exact stepFrameRead_emit h
    · exact absurd h (by simp)

theorem segEmits_flatten {L : VADListener} :
    ∀ {es : List SegEv} {s : SegState} {v : List Frame},
      v ∈ segEmits L s es → v.flatten ≠ []
  | [], s, v => by simp [segEmits]
  | e :: es, s, v => by
    intro hv
    unfold segEmits at hv
    rw [List.mem_append] at hv
    rcases hv with hv | hv
    · rcases ho : (stepSeg L s e).2 with _ | w
      · rw [ho] at hv; simp at hv
      · rw [ho] at hv
        simp only [List.mem_singleton] at hv
        exact hv ▸ stepSeg_emit ho
    · exact segEmits_flatten hv

/-- C4: for every sequence of ingested classified frames (each frame a
non-empty byte buffer), every speech segment the segmenter emits to its
callback has byte length strictly greater than 0.  (The emission guard
`if speech_audio` of vad.py line 122 makes this hold for arbitrary
frames; the non-emptiness hypothesis of the claim is not even
needed.) -/
theorem C4_segments_nonempty (L : VADListener) (frames : List (Frame × Bool))
    (hne : ∀ p ∈ frames, p.1 ≠ []) :
    ∀ v ∈ segEmits L initSeg (frames.map (fun p => SegEv.frame p.1 p.2)),
      0 < v.flatten.length := by
  intro v hv
  exact List.length_pos.mpr (segEmits_flatten hv)

/-- Witness for C4: a concrete two-frame ingestion that emits one
segment of positive byte length. -/
theorem C4_witness :
    (∀ p ∈ framesW, p.1 ≠ []) ∧
      ∀ v ∈ segEmits tinyListener initSeg (framesW.map (fun p => SegEv.frame p.1 p.2)),
        0 < v.flatten.length :=
  ⟨by decide, C4_segments_nonempty tinyListener framesW (by decide)⟩

/-- C10: a call to play_audio_with_amplitude with an absent (None) or
empty audio buffer and a non-null amplitude callback invokes the
callback exactly once with level 0.0 and returns without opening an
output stream, without playing anything, and without raising
(src/audio/tts.py lines 101-104). -/
theorem C10_empty_audio_play (env : PlayEnv) (sr : ℕ) (cd : ℚ) :
    (playAudioWithAmplitude env sr none true cd).calls = [0] ∧
    (playAudioWithAmplitude env sr none true cd).openedStream = false ∧
    (playAudioWithAmplitude env sr none true cd).raised = false ∧
    (playAudioWithAmplitude env sr (some []) true cd).calls = [0] ∧
    (playAudioWithAmplitude env sr (some []) true cd).openedStream = false ∧
    (playAudioWithAmplitude env sr (some []) true cd).raised = false := by
  refine ⟨?_, ?_, ?_, ?_, ?_, ?_⟩ <;> simp [playAudioWithAmplitude]

/-- C8: FaceAnimator._update_mouth drains all queued (timestamp, level)
updates in arrival order with the last one winning for target and
last_update, clamping each applied level to [0, 1] and leaving current
untouched; then the target is decayed by 0.85 exactly when
now - last_update > 0.35; then current is moved toward the target with
gain min(1, dt * 14).  The concrete scenario: after an update with
level 1.0 at time 0, an advance at time 0.3 (within the staleness
threshold) leaves current at 1, and an advance at time 0.4 (past the
threshold) decays the target to 0.85 and strictly lowers current. -/
theorem C8_amplitude_smoother :
    (∀ (q : List (ℚ × ℚ)) (m : Mouth) (ts a : ℚ),
        drainQueue (q ++ [(ts, a)]) m =
          { m with target := max 0 (min a 1), lastUpdate := ts }) ∧
    (∀ m : Mouth, drainQueue [] m = m) ∧
    (∀ (now dt : ℚ) (q : List (ℚ × ℚ)) (m : Mouth),
        (updateMouth now dt q m).target =
          (if 7/20 < now - (drainQueue q m).lastUpdate
            then (drainQueue q m).target * (17/20) else (drainQueue q m).target) ∧
        (updateMouth now dt q m).lastUpdate = (drainQueue q m).lastUpdate ∧
        (updateMouth now dt q m).current =
          (drainQueue q m).current +
            ((updateMouth now dt q m).target - (drainQueue q m).current) * min 1 (dt * 14)) ∧
    (updateMouth 0 1 [(0, 1)] ⟨0, 0, 0⟩ = ⟨1, 1, 0⟩ ∧
      updateMouth (3/10) 1 [] ⟨1, 1, 0⟩ = ⟨1, 1, 0⟩ ∧
      updateMouth (2/5) 1 [] ⟨1, 1, 0⟩ = ⟨17/20, 17/20, 0⟩ ∧
      (17/20 : ℚ) < 1) := by
  refine ⟨?_, fun m => rfl, ?_, ?_⟩
  · intro q
    induction q with
    | nil => intro m ts a; rfl
    | cons p rest ih =>
      intro m ts a
      obtain ⟨ts', a'⟩ := p
      simp only [List.cons_append, drainQueue]
      exact ih _ ts a
  · intro now dt q m
    refine ⟨?_, ?_, ?_⟩ <;> simp only [updateMouth] <;> split <;> rfl
  · refine ⟨?_, ?_, ?_, by norm_num⟩ <;>
      simp [updateMouth, drainQueue, Mouth.mk.injEq] <;> norm_num

theorem ofConfig_stdConfig : VADListener.ofConfig stdConfig = stdListener := by
  norm_num [VADListener.ofConfig, stdConfig, stdListener, pyInt, VADListener.mk.injEq]
  refine ⟨by simp, ?_, ?_, by simp⟩ <;> (try simp) <;> (try norm_num) <;> (try simp)

theorem ofConfig_cfg75 : VADListener.ofConfig cfg75 = listener75 := by
  norm_num [VADListener.ofConfig, cfg75, listener75, pyInt, VADListener.mk.injEq]
  refine ⟨by simp, ?_, ?_, by simp⟩ <;> (try simp) <;> (try norm_num) <;> (try simp)

theorem stepSeg_clean {L : VADListener} {s : SegState} {f : Frame} {b : Bool}
    (hEn : s.vadEnabled = true) (hRe : s.resetBuffers = false)
    (hSk : s.framesToSkip = 0) :
    stepSeg L s (SegEv.frame f b) = stepClassified L s f b := by
  simp [stepSeg, stepFrameRead, hEn, hRe, hSk]

/-- C2 (amended): vad.py computes the thresholds with Python's int()
(truncation), not round(): for every configuration, in a clean enabled
state the segmenter transitions Idle→Triggered exactly when the ring
window is full and contains at least max(1, int(padding_frames *
activation_ratio)) voiced frames, and Triggered→Idle exactly when the
window is again full and contains at least max(1, int(padding_frames *
deactivation_ratio)) unvoiced frames.  The concrete instances of the
claim all hold: with padding_frames=10, activation_ratio=0.6,
deactivation_ratio=0.85 a full window with exactly 6 voiced frames
triggers and 5 does not, and a full window with exactly 8 unvoiced
frames deactivates (emitting the segment) and 7 does not. -/
theorem C2_thresholds (c : VADConfig) (s : SegState) (f : Frame) (b : Bool)
    (hEn : s.vadEnabled = true) (hRe : s.resetBuffers = false)
    (hSk : s.framesToSkip = 0) :
    (s.triggered = false →
      (((stepSeg (VADListener.ofConfig c) s (SegEv.frame f b)).1.triggered = true) ↔
        ((ringPush (VADListener.ofConfig c) s.ring (f, b)).length =
            (VADListener.ofConfig c).paddingFrames ∧
          max 1 (pyInt (((VADListener.ofConfig c).paddingFrames : ℚ) *
              c.activationFrac)).toNat ≤
            numVoiced (ringPush (VADListener.ofConfig c) s.ring (f, b))))) ∧
    (s.triggered = true →
      (((stepSeg (VADListener.ofConfig c) s (SegEv.frame f b)).1.triggered = false) ↔
        ((ringPush (VADListener.ofConfig c) s.ring (f, b)).length =
            (VADListener.ofConfig c).paddingFrames ∧
          max 1 (pyInt (((VADListener.ofConfig c).paddingFrames : ℚ) *
              c.deactivationFrac)).toNat ≤
            numUnvoiced (ringPush (VADListener.ofConfig c) s.ring (f, b))))) ∧
    (VADListener.ofConfig stdConfig = stdListener ∧
      (segFinal stdListener initSeg esTrig6).triggered = true ∧
      (segFinal stdListener initSeg esTrig5).triggered = false ∧
      (segFinal stdListener initSeg esDeact8).triggered = false ∧
      segEmits stdListener initSeg esDeact8 ≠ [] ∧
      (segFinal stdListener initSeg esDeact7).triggered = true) := by
  have hact : max 1 (pyInt (((VADListener.ofConfig c).paddingFrames : ℚ) *
      c.activationFrac)).toNat = (VADListener.ofConfig c).activationCount := rfl
  have hdea : max 1 (pyInt (((VADListener.ofConfig c).paddingFrames : ℚ) *
      c.deactivationFrac)).toNat = (VADListener.ofConfig c).deactivationCount := rfl
  refine ⟨?_, ?_, ofConfig_stdConfig, by decide, by decide, by decide, by decide, by decide⟩
  · intro htr
    rw [stepSeg_clean hEn hRe hSk, hact]
    rcases Classical.em
        ((ringPush (VADListener.ofConfig c) s.ring (f, b)).length =
            (VADListener.ofConfig c).paddingFrames ∧
          (VADListener.ofConfig c).activationCount ≤
            numVoiced (ringPush (VADListener.ofConfig c) s.ring (f, b))) with hc | hc
    · simp [stepClassified, htr, hc]
    · simp [stepClassified, htr, hc]
  · intro htr
    rw [stepSeg_clean hEn hRe hSk, hdea]
    rcases Classical.em
        ((ringPush (VADListener.ofConfig c) s.ring (f, b)).length =
            (VADListener.ofConfig c).paddingFrames ∧
          (VADListener.ofConfig c).deactivationCount ≤
            numUnvoiced (ringPush (VADListener.ofConfig c) s.ring (f, b))) with hc | hc
    · simp [stepClassified, htr, hc]
    · simp [stepClassified, htr, hc]

/-- Counterexample to C2 as stated: under the configuration cfg75
(padding_frames=10, activation_ratio=0.75, a value exactly representable
as a float), ingesting a full window of 10 frames of which exactly 7
are voiced triggers activation in the code, yet the claimed threshold
max(1, round(10 * 0.75)) = 8 exceeds 7 — so the claim's "exactly when
at least max(1, round(padding_frames * activation_ratio)) voiced
frames" is false for this configuration.  (Python's banker's rounding
and mathematical half-up rounding agree here: both give 8.) -/
theorem C2_counterexample :
    (VADListener.ofConfig cfg75).paddingFrames = 10 ∧
    es75.length = 10 ∧
    List.countP evVoiced es75 = 7 ∧
    (segFinal (VADListener.ofConfig cfg75) initSeg es75).triggered = true ∧
    7 < max 1 (round (((VADListener.ofConfig cfg75).paddingFrames : ℚ) *
      cfg75.activationFrac)).toNat := by
  rw [ofConfig_cfg75]
  refine ⟨rfl, by decide, by decide, by decide, ?_⟩
  rw [round_eq]
  norm_num [listener75, cfg75]

/-- Witness for C2_thresholds: the default configuration, the initial
state and a single voiced frame. -/
theorem C2_witness :
    initSeg.vadEnabled = true ∧ initSeg.resetBuffers = false ∧
    initSeg.framesToSkip = 0 ∧ initSeg.triggered = false ∧
    (((stepSeg (VADListener.ofConfig stdConfig) initSeg
        (SegEv.frame [1] true)).1.triggered = true) ↔
      ((ringPush (VADListener.ofConfig stdConfig) initSeg.ring ([1], true)).length =
          (VADListener.ofConfig stdConfig).paddingFrames ∧
        max 1 (pyInt (((VADListener.ofConfig stdConfig).paddingFrames : ℚ) *
            stdConfig.activationFrac)).toNat ≤
          numVoiced (ringPush (VADListener.ofConfig stdConfig) initSeg.ring ([1], true)))) :=
  ⟨rfl, rfl, rfl, rfl,
    (C2_thresholds stdConfig initSeg [1] true rfl rfl rfl).1 rfl⟩

/-- C6: after trimming and lowercasing both the transcription and
LastResponse, if both are non-empty and either is a substring of the
other (including exact equality) the turn is discarded as self-echo —
no response query is issued, the segmenter is re-enabled, LastResponse
is unchanged — and otherwise the turn proceeds to the response query;
this holds in both controllers (src/main.py lines 69-80 and
src/streamlined_main.py lines 85-96).  echoSpecB is the spec's wording
of the rule; the code's extra equality disjunct is absorbed by
substring reflexivity (isEcho_eq_echoSpecB). -/
theorem C6_echo_rule (c : MainCaps) (cs : StreamCaps) (lastResp t : String)
    (h1 : c.stt = Except.ok t) (h2 : cs.stt = Except.ok t)
    (h3 : pyStrip t ≠ "") :
    (echoSpecB t lastResp = true →
      Act.callQuery ∉ mainTurn c lastResp ∧ vadAfter (mainTurn c lastResp) = true ∧
      lastAfter (mainTurn c lastResp) lastResp = lastResp ∧
      Act.callQuery ∉ streamlinedTurn cs lastResp ∧
      vadAfter (streamlinedTurn cs lastResp) = true ∧
      lastAfter (streamlinedTurn cs lastResp) lastResp = lastResp) ∧
    (echoSpecB t lastResp = false →
      Act.callQuery ∈ mainTurn c lastResp ∧
      Act.callQuery ∈ streamlinedTurn cs lastResp) := by
  constructor
  · intro he
    have hecho : isEcho t lastResp = true := by rw [isEcho_eq_echoSpecB]; exact he
    have hmain : mainTurn c lastResp = [Act.disable, Act.callStt, Act.amp 0, Act.enable] := by
      simp [mainTurn, h1, h3, hecho]
    have hstream : streamlinedTurn cs lastResp = [Act.disable, Act.callStt, Act.enable] := by
      simp [streamlinedTurn, h2, h3, hecho]
    rw [hmain, hstream]
    refine ⟨by decide, rfl, rfl, by decide, rfl, rfl⟩
  · intro he
    have hecho : isEcho t lastResp = false := by rw [isEcho_eq_echoSpecB]; exact he
    constructor
    · simp [mainTurn, h1, h3, hecho]
    · simp [streamlinedTurn, h2, h3, hecho]

/-- Witness for C6: transcription "turn left" with LastResponse
"please turn left now" is discarded as echo; transcription
"hello there" with LastResponse "goodbye" proceeds to the query. -/
theorem C6_witness :
    pyStrip "turn left" ≠ "" ∧
    echoSpecB "turn left" "please turn left now" = true ∧
    (Act.callQuery ∉ mainTurn capsEcho "please turn left now" ∧
      vadAfter (mainTurn capsEcho "please turn left now") = true ∧
      lastAfter (mainTurn capsEcho "please turn left now") "please turn left now" =
        "please turn left now" ∧
      Act.callQuery ∉ streamlinedTurn scapsEcho "please turn left now" ∧
      vadAfter (streamlinedTurn scapsEcho "please turn left now") = true ∧
      lastAfter (streamlinedTurn scapsEcho "please turn left now") "please turn left now" =
        "please turn left now") ∧
    echoSpecB "hello there" "goodbye" = false ∧
    (Act.callQuery ∈ mainTurn capsHello "goodbye" ∧
      Act.callQuery ∈ streamlinedTurn scapsHello "goodbye") :=
  ⟨by decide, by decide,
    (C6_echo_rule capsEcho scapsEcho "please turn left now" "turn left" rfl rfl
      (by decide)).1 (by decide),
    by decide,
    (C6_echo_rule capsHello scapsHello "goodbye" "hello there" rfl rfl
      (by decide)).2 (by decide)⟩

theorem pyStrip_empty : pyStrip "" = "" := rfl

theorem vadAfterFrom_cons (v : Bool) (a : Act) (l : List Act) :
    vadAfterFrom v (a :: l) = vadAfterFrom (match a with
      | Act.enable => true | Act.disable => false | _ => v) l := rfl

theorem lastAfter_cons (a : Act) (l : List Act) (t : String) :
    lastAfter (a :: l) t = lastAfter l (match a with
      | Act.setLast u => u | _ => t) := rfl

theorem ollamaQuery_ok (r : OllamaHttp) :
    ∃ resp, ollamaQuery true (Except.ok r) = Except.ok resp := by
  simp only [ollamaQuery]
  split
  · exact ⟨"", rfl⟩
  · exact ⟨_, rfl⟩

/-- C1 (amended): in on_speech_detected of src/main.py, failures of the
transcription and synthesis capabilities are caught and treated as
empty/unsuccessful, and on every turn in which the response-query
network call does not raise and playback does not raise, the handler
terminates without an uncaught exception and with the segmenter
re-enabled.  (The claim as stated is false: a raise from
OllamaClient.query or from playback propagates — see
C1_counterexample.) -/
theorem C1_failures (c : MainCaps) (lastResp : String) (r : OllamaHttp)
    (hn : c.net = Except.ok r) (hp : c.playRaise = false) :
    Act.raised ∉ mainTurn c lastResp ∧
    vadAfter (mainTurn c lastResp) = true ∧
    (c.stt = Except.error () →
      mainTurn c lastResp = [Act.disable, Act.callStt, Act.amp 0, Act.enable]) := by
  obtain ⟨resp, hresp⟩ := ollamaQuery_ok r
  rw [← hn] at hresp
  cases hstt : c.stt with
  | error u =>
    cases u
    have hmain : mainTurn c lastResp = [Act.disable, Act.callStt, Act.amp 0, Act.enable] := by
      simp [mainTurn, hstt, pyStrip_empty]
    rw [hmain]
    exact ⟨by decide, rfl, fun _ => rfl⟩
  | ok t =>
    by_cases h3 : pyStrip t = ""
    · have hmain : mainTurn c lastResp = [Act.disable, Act.callStt, Act.amp 0, Act.enable] := by
        simp [mainTurn, hstt, h3]
      rw [hmain]
      exact ⟨by decide, rfl, fun h => Except.noConfusion h⟩
    · by_cases h4 : isEcho t lastResp = true
      · have hmain : mainTurn c lastResp = [Act.disable, Act.callStt, Act.amp 0, Act.enable] := by
          simp [mainTurn, hstt, h3, h4]
        rw [hmain]
        exact ⟨by decide, rfl, fun h => Except.noConfusion h⟩
      · rw [Bool.not_eq_true] at h4
        by_cases h5 : pyStrip resp = ""
        · have hmain : mainTurn c lastResp =
              [Act.disable, Act.callStt, Act.callQuery, Act.amp 0, Act.enable] := by
            simp [mainTurn, hstt, h3, h4, hresp, h5]
          rw [hmain]
          exact ⟨by decide, rfl, fun h => Except.noConfusion h⟩
        · cases h6 : c.synthFails with
          | true =>
            have hmain : mainTurn c lastResp =
                [Act.disable, Act.callStt, Act.callQuery, Act.callSynth,
                  Act.amp 0, Act.enable] := by
              simp [mainTurn, hstt, h3, h4, hresp, h5, h6]
            rw [hmain]
            exact ⟨by decide, rfl, fun h => Except.noConfusion h⟩
          | false =>
            have hmain : mainTurn c lastResp =
                Act.disable :: Act.callStt :: Act.callQuery :: Act.callSynth ::
                  Act.setLast resp :: Act.callPlay ::
                    (c.playCalls.map Act.amp ++ [Act.amp 0, Act.enable]) := by
              simp [mainTurn, hstt, h3, h4, hresp, h5, h6, hp]
            rw [hmain]
            refine ⟨?_, ?_, fun h => Except.noConfusion h⟩
            · simp
            · simp only [vadAfter, vadAfterFrom_cons]
              rw [vadAfterFrom_append, vadAfterFrom_amps]
              rfl

/-- Counterexample to C1 as stated: with a recognized utterance and a
requests.post raise inside OllamaClient.query (src/main.py line 82 has
no try around it), the turn handler terminates with an uncaught
exception and the segmenter is left gated (disable_vad was called,
enable_vad never is). -/
theorem C1_counterexample :
    Act.raised ∈ mainTurn capsNetRaise "" ∧
    vadAfter (mainTurn capsNetRaise "") = false := by
  decide

/-- Witness for C1_failures: an STT failure with a healthy network is
caught; the turn collapses and the segmenter is re-enabled. -/
theorem C1_witness :
    capsSttFail.net = Except.ok okHttp ∧ capsSttFail.playRaise = false ∧
    (Act.raised ∉ mainTurn capsSttFail "" ∧
      vadAfter (mainTurn capsSttFail "") = true ∧
      (capsSttFail.stt = Except.error () →
        mainTurn capsSttFail "" = [Act.disable, Act.callStt, Act.amp 0, Act.enable])) :=
  ⟨rfl, rfl, C1_failures capsSttFail "" okHttp rfl rfl⟩

/-- C3 (amended): on a turn that reaches synthesis and in which the
synthesis capability raises, both controllers return to Listening with
the segmenter re-enabled and no uncaught exception; the controller of
src/main.py leaves LastResponse unchanged, but the controller of
src/streamlined_main.py updates LastResponse to the response text even
though synthesis failed (the assignment at line 116 runs after the
try/except unconditionally).  The claim as stated — no LastResponse
update on synthesis failure — is false for streamlined_main.py; see
C3_counterexample. -/
theorem C3_synth_failure (cm : MainCaps) (cs : StreamCaps) (lastResp t resp : String)
    (h1 : cm.stt = Except.ok t) (h2 : cs.stt = Except.ok t)
    (h3 : pyStrip t ≠ "") (h4 : isEcho t lastResp = false)
    (h5 : ollamaQuery true cm.net = Except.ok resp)
    (h6 : ollamaQuery true cs.net = Except.ok resp)
    (h7 : pyStrip resp ≠ "") (h8 : cm.synthFails = true) (h9 : cs.synthFails = true) :
    lastAfter (mainTurn cm lastResp) lastResp = lastResp ∧
    vadAfter (mainTurn cm lastResp) = true ∧
    Act.raised ∉ mainTurn cm lastResp ∧
    lastAfter (streamlinedTurn cs lastResp) lastResp = resp ∧
    vadAfter (streamlinedTurn cs lastResp) = true ∧
    Act.raised ∉ streamlinedTurn cs lastResp := by
  have hmain : mainTurn cm lastResp =
      [Act.disable, Act.callStt, Act.callQuery, Act.callSynth, Act.amp 0, Act.enable] := by
    simp [mainTurn, h1, h3, h4, h5, h7, h8]
  have hstream : streamlinedTurn cs lastResp =
      [Act.disable, Act.callStt, Act.callQuery, Act.callSynth,
        Act.setLast resp, Act.enable] := by
    simp [streamlinedTurn, h2, h3, h4, h6, h7, h9]
  rw [hmain, hstream]
  exact ⟨rfl, rfl, by decide, rfl, rfl, by simp⟩

/-- Counterexample to C3 as stated: in src/streamlined_main.py a turn
whose synthesis raises still sets last_bot_response to the response
text ("world"), different from its value before the turn (""). -/
theorem C3_counterexample :
    scapsSynthFail.synthFails = true ∧
    lastAfter (streamlinedTurn scapsSynthFail "") "" = "world" ∧
    ("world" : String) ≠ "" ∧
    vadAfter (streamlinedTurn scapsSynthFail "") = true := by
  decide

/-- Witness for C3_synth_failure: a concrete failed-synthesis turn in
both controllers. -/
theorem C3_witness :
    pyStrip "hi" ≠ "" ∧ isEcho "hi" "" = false ∧
    ollamaQuery true capsSynthFail.net = Except.ok "world" ∧ pyStrip "world" ≠ "" ∧
    (lastAfter (mainTurn capsSynthFail "") "" = "" ∧
      vadAfter (mainTurn capsSynthFail "") = true ∧
      Act.raised ∉ mainTurn capsSynthFail "" ∧
      lastAfter (streamlinedTurn scapsSynthFail "") "" = "world" ∧
      vadAfter (streamlinedTurn scapsSynthFail "") = true ∧
      Act.raised ∉ streamlinedTurn scapsSynthFail "") :=
  ⟨by decide, by decide, rfl, by decide,
    C3_synth_failure capsSynthFail scapsSynthFail "" "hi" "world" rfl rfl (by decide)
      (by decide) rfl rfl (by decide) rfl rfl⟩

/-- Chunking a non-empty buffer with a positive chunk size yields at
least one chunk (KokoroTTS._chunk_audio). -/
theorem chunkSamples_length_ne (size : ℕ) (a : List ℚ) (hs : 0 < size) (ha : a ≠ []) :
    (chunkSamples size a).length ≠ 0 := by
  have h1 : 1 ≤ a.length := List.length_pos.mpr ha
  have h2 : size ≤ a.length + size - 1 := by omega
  have h3 := Nat.div_pos h2 hs
  simp only [chunkSamples, List.length_map, List.length_range]
  omega

/-- C7 (amended): on every fully successful turn the controller of
src/main.py updates LastResponse to the synthesized response text and
the action trace ends with a 0.0 amplitude sample followed by the
enable of the segmenter; and KokoroTTS.play_audio_with_amplitude,
whenever the output stream opens, invokes the amplitude callback a
final time with 0.0 on completion or early stop, even when a chunk
write raises (the finally block, tts.py lines 134-136).  The claim as
stated — a final 0.0 even whenever playback raises — is false when
opening the output stream itself raises, since pa.open (lines 118-124)
runs before the try block; see C7_counterexample. -/
theorem C7_success_and_final_zero :
    (∀ (c : MainCaps) (lastResp t resp : String),
      c.stt = Except.ok t → pyStrip t ≠ "" → isEcho t lastResp = false →
      ollamaQuery true c.net = Except.ok resp → pyStrip resp ≠ "" →
      c.synthFails = false → c.playRaise = false →
      lastAfter (mainTurn c lastResp) lastResp = resp ∧
      ∃ pre, mainTurn c lastResp = pre ++ [Act.amp 0, Act.enable]) ∧
    (∀ (env : PlayEnv) (sr : ℕ) (cd : ℚ) (a : List ℚ),
      env.openFails = false →
      (playAudioWithAmplitude env sr (some a) true cd).calls ≠ [] ∧
      (playAudioWithAmplitude env sr (some a) true cd).calls.getLast? = some 0) := by
  constructor
  · intro c lastResp t resp h1 h3 h4 h5 h7 h6 hp
    have hmain : mainTurn c lastResp =
        Act.disable :: Act.callStt :: Act.callQuery :: Act.callSynth ::
          Act.setLast resp :: Act.callPlay ::
            (c.playCalls.map Act.amp ++ [Act.amp 0, Act.enable]) := by
      simp [mainTurn, h1, h3, h4, h5, h7, h6, hp]
    rw [hmain]
    constructor
    · simp only [lastAfter_cons]
      rw [lastAfter_append, lastAfter_amps]
      rfl
    · refine ⟨Act.disable :: Act.callStt :: Act.callQuery :: Act.callSynth ::
        Act.setLast resp :: Act.callPlay :: c.playCalls.map Act.amp, ?_⟩
      simp
  · intro env sr cd a hopen
    by_cases ha : a = []
    · subst ha
      constructor <;> simp [playAudioWithAmplitude]
    · have hlen : ¬(a.length = 0) := by simpa using ha
      have hch : ¬((chunkSamples (max 1 (pyInt ((sr : ℚ) * cd)).toNat) a).length = 0) :=
        chunkSamples_length_ne _ a (lt_of_lt_of_le one_pos (le_max_left _ _)) ha
      simp only [playAudioWithAmplitude, if_neg hlen, if_neg hch, hopen]
      constructor <;> simp [List.getLast?_concat]

/-- Counterexample to C7 as stated: if pa.open raises on a non-empty
buffer, play_audio_with_amplitude raises without ever invoking the
amplitude callback — no final 0.0 call is made. -/
theorem C7_counterexample :
    (playAudioWithAmplitude envOpenFail 1 (some [1]) true 1).calls = [] ∧
    (playAudioWithAmplitude envOpenFail 1 (some [1]) true 1).raised = true := by
  have hlen : ¬(([(1:ℚ)] : List ℚ).length = 0) := by simp
  have hch : ¬((chunkSamples (max 1 (pyInt (((1:ℕ) : ℚ) * (1:ℚ))).toNat) [(1:ℚ)]).length = 0) :=
    chunkSamples_length_ne _ _ (lt_of_lt_of_le one_pos (le_max_left _ _)) (by simp)
  constructor <;>
    · simp only [playAudioWithAmplitude]
      rw [if_neg hlen, if_neg hch, if_pos (show envOpenFail.openFails = true from rfl)]

/-- Witness for C7_success_and_final_zero: a concrete fully successful
turn, and a concrete playback with an open stream ending in 0.0. -/
theorem C7_witness :
    pyStrip "hi" ≠ "" ∧ capsSuccess.synthFails = false ∧
    (lastAfter (mainTurn capsSuccess "") "" = "world" ∧
      ∃ pre, mainTurn capsSuccess "" = pre ++ [Act.amp 0, Act.enable]) ∧
    envOk.openFails = false ∧
    ((playAudioWithAmplitude envOk 1 (some [1]) true 1).calls ≠ [] ∧
      (playAudioWithAmplitude envOk 1 (some [1]) true 1).calls.getLast? = some 0) :=
  ⟨by decide, rfl,
    C7_success_and_final_zero.1 capsSuccess "" "hi" "world" rfl (by decide) (by decide)
      rfl (by decide) rfl rfl,
    rfl,
    C7_success_and_final_zero.2 envOk 1 1 [1] rfl⟩

/-- Every frame in the ring buffer after a push was in the buffer
before, or is the pushed frame. -/
theorem ringPush_fst_mem {L : VADListener} {r : List (Frame × Bool)} {x : Frame × Bool}
    {g : Frame} (h : g ∈ (ringPush L r x).map Prod.fst) :
    g ∈ r.map Prod.fst ++ [x.1] := by
  rw [List.mem_map] at h
  obtain ⟨p, hp, rfl⟩ := h
  simp only [ringPush] at hp
  have hp2 : p ∈ r ++ [x] := List.mem_of_mem_drop hp
  rw [List.mem_append] at hp2
  rcases hp2 with hp2 | hp2
  · exact List.mem_append_left _ (List.mem_map_of_mem _ hp2)
  · simp only [List.mem_singleton] at hp2
    subst hp2
    simp

/-- A classified step keeps the buffers, and any emission, inside the
previously buffered frames plus the current frame. -/
theorem stepClassified_bounds {L : VADListener} {s : SegState} {f : Frame} {b : Bool}
    {A : List Frame} (h : ∀ g ∈ bufMem s, g ∈ A) :
    (∀ g ∈ bufMem (stepClassified L s f b).1, g ∈ A ++ [f]) ∧
    (∀ v, (stepClassified L s f b).2 = some v → ∀ g ∈ v, g ∈ A ++ [f]) := by
  have hring : ∀ g ∈ (ringPush L s.ring (f, b)).map Prod.fst, g ∈ A ++ [f] := by
    intro g hg
    have h2 := ringPush_fst_mem (L := L) hg
    rw [List.mem_append] at h2
    rcases h2 with hh | hh
    · exact List.mem_append_left _ (h g (List.mem_append_left _ hh))
    · simp only [List.mem_singleton] at hh
      subst hh
      simp
  have hvoiced : ∀ g ∈ s.voiced, g ∈ A ++ [f] := fun g hg =>
    List.mem_append_left _ (h g (List.mem_append_right _ hg))
  constructor
  · intro g hg
    simp only [stepClassified] at hg
    split at hg
    · split at hg
      · simp [bufMem] at hg
      · simp only [bufMem] at hg
        rw [List.mem_append] at hg
        rcases hg with hg | hg
        · exact hring g hg
        · rw [List.mem_append] at hg
          rcases hg with hg | hg
          · exact hvoiced g hg
          · simp only [List.mem_singleton] at hg
            subst hg
            simp
    · split at hg
      · simp only [bufMem, List.map_nil, List.nil_append] at hg
        rw [List.mem_append] at hg
        rcases hg with hg | hg
        · exact hvoiced g hg
        · exact hring g hg
      · simp only [bufMem] at hg
        rw [List.mem_append] at hg
        rcases hg with hg | hg
        · exact hring g hg
        · exact hvoiced g hg
  · intro v hv g hg
    simp only [stepClassified] at hv
    split at hv
    · split at hv
      · split at hv
        · exact absurd hv (by simp)
        · simp only [Option.some.injEq] at hv
          subst hv
          rw [List.mem_append] at hg
          rcases hg with hg | hg
          · exact hvoiced g hg
          · simp only [List.mem_singleton] at hg
            subst hg
            simp
      · exact absurd hv (by simp)
    · split at hv <;> exact absurd hv (by simp)

/-- A frame iteration with no pending reset and a live skip counter
only decrements the counter. -/
theorem stepFrameRead_skip {L : VADListener} {s : SegState} {f : Frame} {b : Bool}
    (hr : s.resetBuffers = false) (hk : 0 < s.framesToSkip) :
    stepFrameRead L s f b = ({ s with framesToSkip := s.framesToSkip - 1 }, none) := by
  simp [stepFrameRead, hr, hk]

/-- A frame iteration with no pending reset and an exhausted skip
counter runs the classifier. -/
theorem stepFrameRead_go {L : VADListener} {s : SegState} {f : Frame} {b : Bool}
    (hr : s.resetBuffers = false) (hk : ¬0 < s.framesToSkip) :
    stepFrameRead L s f b = stepClassified L s f b := by
  simp [stepFrameRead, hr, hk]

/-- A frame iteration with a pending reset behaves like one from the
state with cleared buffers and the reset flag consumed. -/
theorem stepFrameRead_reset {L : VADListener} {s : SegState} {f : Frame} {b : Bool}
    (hr : s.resetBuffers = true) :
    stepFrameRead L s f b =
      stepFrameRead L
        { s with ring := [], voiced := [], triggered := false, resetBuffers := false } f b := by
  simp [stepFrameRead, hr]

/-- A frame iteration from a state whose buffers are either bounded by
A or due to be reset keeps the buffers, and any emission, inside
A plus the current frame. -/
theorem stepFrameRead_bounds {L : VADListener} {s : SegState} {f : Frame} {b : Bool}
    {A : List Frame} (h : SegOk A s) :
    (∀ g ∈ bufMem (stepFrameRead L s f b).1, g ∈ A ++ [f]) ∧
    (∀ v, (stepFrameRead L s f b).2 = some v → ∀ g ∈ v, g ∈ A ++ [f]) := by
  cases hr : s.resetBuffers with
  | true =>
    rw [stepFrameRead_reset hr]
    have hbuf : ∀ g ∈
        bufMem ({ s with ring := [], voiced := [], triggered := false, resetBuffers := false } : SegState),
        g ∈ A := by
      simp [bufMem]
    by_cases hk : 0 < ({ s with ring := [], voiced := [], triggered := false, resetBuffers := false } : SegState).framesToSkip
    · rw [stepFrameRead_skip rfl hk]
      refine ⟨?_, ?_⟩
      · intro g hg
        simp [bufMem] at hg
      · intro v hv
        exact absurd hv (by simp)
    · rw [stepFrameRead_go rfl hk]
      exact stepClassified_bounds hbuf
  | false =>
    have hbuf : ∀ g ∈ bufMem s, g ∈ A := by
      rcases h with h | h
      · rw [hr] at h
        exact absurd h (by simp)
      · exact h
    by_cases hk : 0 < s.framesToSkip
    · rw [stepFrameRead_skip hr hk]
      refine ⟨?_, ?_⟩
      · intro g hg
        have hg2 : g ∈ bufMem s := by simpa [bufMem] using hg
        exact List.mem_append_left _ (hbuf g hg2)
      · intro v hv
        exact absurd hv (by simp)
    · rw [stepFrameRead_go hr hk]
      exact stepClassified_bounds hbuf

/-- Any capture-loop step preserves the SegOk bound, extending the
allowed frames by the frame of the event, and every emission stays
within the bound. -/
theorem stepSeg_segOk {L : VADListener} {s : SegState} {e : SegEv} {A : List Frame}
    (h : SegOk A s) :
    SegOk (A ++ evFrames [e]) (stepSeg L s e).1 ∧
    (∀ v, (stepSeg L s e).2 = some v → ∀ g ∈ v, g ∈ A ++ evFrames [e]) := by
  cases e with
  | enable => exact ⟨Or.inl rfl, fun v hv => absurd hv (by simp [stepSeg])⟩
  | disable => exact ⟨Or.inl rfl, fun v hv => absurd hv (by simp [stepSeg])⟩
  | frame f b =>
    have hev : evFrames [SegEv.frame f b] = [f] := rfl
    rw [hev]
    by_cases hen : s.vadEnabled = true
    · have hb := stepFrameRead_bounds (L := L) (f := f) (b := b) h
      constructor
      · simp only [stepSeg, hen, if_true]
        exact Or.inr hb.1
      · simp only [stepSeg, hen, if_true]
        exact hb.2
    · have hen2 : s.vadEnabled = false := by simpa using hen
      constructor
      · simp only [stepSeg, hen2]
        refine Or.inr ?_
        intro g hg
        simp [bufMem] at hg
      · simp only [stepSeg, hen2]
        intro v hv
        exact absurd hv (by simp)

/-- Frames of an event list, cons form. -/
theorem evFrames_cons (e : SegEv) (es : List SegEv) :
    evFrames (e :: es) = evFrames [e] ++ evFrames es := by
  cases e <;> simp [evFrames]

/-- Over any event sequence from a SegOk-bounded state, every frame of
every emitted segment is among the allowed frames plus the frames
ingested during the sequence. -/
theorem segEmits_segOk {L : VADListener} :
    ∀ {es : List SegEv} {s : SegState} {A : List Frame}, SegOk A s →
      ∀ v ∈ segEmits L s es, ∀ g ∈ v, g ∈ A ++ evFrames es
  | [], s, A => by
    intro h v hv
    simp [segEmits] at hv
  | e :: es, s, A => by
    intro h v hv g hg
    have hstep := stepSeg_segOk (L := L) (e := e) h
    rw [evFrames_cons, ← List.append_assoc]
    unfold segEmits at hv
    rw [List.mem_append] at hv
    rcases hv with hv | hv
    · rcases ho : (stepSeg L s e).2 with _ | w
      · rw [ho] at hv
        simp at hv
      · rw [ho] at hv
        simp only [List.mem_singleton] at hv
        subst hv
        exact List.mem_append_left _ (hstep.2 v ho g hg)
    · exact segEmits_segOk hstep.1 v hv g hg

/-- C5: once disable_vad is called on any segmenter state, all in-flight
accumulator and window state is discarded: every segment emitted while
processing any subsequent events (enable_vad calls included) consists
exclusively of frames ingested after the disable — no pre-disable
frame bytes survive into a later emission. -/
theorem C5_disable_discards (L : VADListener) (s : SegState) (es : List SegEv) :
    ∀ v ∈ segEmits L (disableVad s) es, ∀ f ∈ v, f ∈ evFrames es := by
  intro v hv f hf
  have h := @segEmits_segOk L es (disableVad s) [] (Or.inl rfl) v hv f hf
  simpa using h

/-- Witness for C5: a mid-utterance state holding frame [7] is
disabled; after a subsequent enable and fresh frames, the emitted
segment is [[1], [2]] and its frames come from the post-disable
events. -/
theorem C5_witness :
    ([[1], [2]] : List Frame) ∈ segEmits tinyListener (disableVad dirtySeg) esEnableThen ∧
    ([1] : Frame) ∈ ([[1], [2]] : List Frame) ∧
    ([1] : Frame) ∈ evFrames esEnableThen :=
  ⟨by decide, by decide,
    C5_disable_discards tinyListener dirtySeg esEnableThen [[1], [2]] (by decide)
      [1] (by decide)⟩

/-- Two states that agree on every flag and both have a pending buffer
reset produce the same step output and stay related: the pending reset
discards the buffers before they are consulted. -/
theorem stepSeg_rel {L : VADListener} {s t : SegState} (h : SegRel s t) (e : SegEv) :
    (stepSeg L s e).2 = (stepSeg L t e).2 ∧ SegRel (stepSeg L s e).1 (stepSeg L t e).1 := by
  rcases h with h | ⟨hrs, hrt, hsk, hen⟩
  · subst h
    exact ⟨rfl, Or.inl rfl⟩
  · cases e with
    | enable => exact ⟨rfl, Or.inr ⟨rfl, rfl, rfl, rfl⟩⟩
    | disable => exact ⟨rfl, Or.inr ⟨rfl, rfl, rfl, rfl⟩⟩
    | frame f b =>
      by_cases he : s.vadEnabled = true
      · have het : t.vadEnabled = true := by rw [← hen]; exact he
        rw [show stepSeg L s (SegEv.frame f b) = stepFrameRead L s f b from by
          simp [stepSeg, he]]
        rw [show stepSeg L t (SegEv.frame f b) = stepFrameRead L t f b from by
          simp [stepSeg, het]]
        rw [stepFrameRead_reset hrs, stepFrameRead_reset hrt]
        have hclear :
            ({ s with ring := [], voiced := [], triggered := false, resetBuffers := false } : SegState) =
            { t with ring := [], voiced := [], triggered := false, resetBuffers := false } := by
          cases s
          cases t
          simp_all
        rw [hclear]
        exact ⟨rfl, Or.inl rfl⟩
      · have he2 : s.vadEnabled = false := by simpa using he
        have het : t.vadEnabled = false := by rw [← hen]; exact he2
        rw [show stepSeg L s (SegEv.frame f b) =
            ({ s with ring := [], voiced := [], triggered := false }, none) from by
          simp [stepSeg, he2]]
        rw [show stepSeg L t (SegEv.frame f b) =
            ({ t with ring := [], voiced := [], triggered := false }, none) from by
          simp [stepSeg, het]]
        refine ⟨rfl, Or.inl ?_⟩
        cases s
        cases t
        simp_all

/-- Related states emit identical segment sequences on every event
list. -/
theorem segEmits_rel {L : VADListener} :
    ∀ {es : List SegEv} {s t : SegState}, SegRel s t → segEmits L s es = segEmits L t es
  | [], s, t => fun _ => rfl
  | e :: es, s, t => fun h => by
    have hstep := stepSeg_rel (L := L) h e
    unfold segEmits
    rw [hstep.1, segEmits_rel hstep.2]

/-- C9 (amended): calling enable_vad on an already-enabled segmenter
re-arms the skip counter and additionally schedules a buffer reset: it
is observably equivalent (same emitted segments for all subsequent
events) to calling enable_vad with the RingWindow, accumulator and
Triggered state cleared — not a no-op on those buffers, and not
equivalent to re-arming only the skip counter (see
C9_counterexample). -/
theorem C9_enable_schedules_reset (L : VADListener) (s : SegState) (es : List SegEv)
    (h : s.vadEnabled = true) :
    segEmits L (enableVad L s) es = segEmits L (enableVad L (clearBuf s)) es := by
  apply segEmits_rel
  exact Or.inr ⟨rfl, rfl, rfl, rfl⟩

/-- Counterexample to C9 as stated: from an already-enabled
mid-utterance state holding frame [7], the code's enable_vad (which
sets _reset_buffers) later emits [[1], [2]], while re-arming only the
skip counter would emit [[7], [1], [2]] — the in-flight accumulator is
not preserved, so enable() is not a no-op beyond the skip window. -/
theorem C9_counterexample :
    dirtySeg.vadEnabled = true ∧
    segEmits tinyListener (enableVad tinyListener dirtySeg) esAfterSkip = [[[1], [2]]] ∧
    segEmits tinyListener (enableOnlySkip tinyListener dirtySeg) esAfterSkip =
      [[[7], [1], [2]]] ∧
    segEmits tinyListener (enableVad tinyListener dirtySeg) esAfterSkip ≠
      segEmits tinyListener (enableOnlySkip tinyListener dirtySeg) esAfterSkip := by
  refine ⟨rfl, by decide, by decide, by decide⟩

/-- Witness for C9_enable_schedules_reset at a concrete enabled dirty
state and event list. -/
theorem C9_witness :
    dirtySeg.vadEnabled = true ∧
    segEmits tinyListener (enableVad tinyListener dirtySeg) esAfterSkip =
      segEmits tinyListener (enableVad tinyListener (clearBuf dirtySeg)) esAfterSkip :=
  ⟨rfl, C9_enable_schedules_reset tinyListener dirtySeg esAfterSkip rfl⟩
